import Mathlib

/-!
Verification development for the StoryForge graph core
(`src/node_system.py` and `src/storyforge/dialogs.py`).

Python dictionaries are modelled as ordered association lists
(`List (String × α)`): insertion of a fresh key appends, insertion of an
existing key replaces in place, deletion filters the key out, and lookup
returns the first (under the dict discipline: unique) match.  Python lists
become Lean lists, sets become lists used up to membership, `None` becomes
`Option`, and exceptions become `Except`.  Fields of the Python dataclasses
that only feed the pygame presentation layer (positions, sizes, colors,
fonts, property bags) are not part of any claim and are omitted; every field
the graph algorithms read is kept under its source name.
-/

namespace StoryForge

/-- `ConnectionType` enum from `node_system.py`. -/
inductive ConnectionType where
  | SIMPLE
  | CONDITIONAL
  | PREREQUISITE
  | DEPENDENCY
  | CHOICE
  | RESOURCE_GATED
  | TIME_BASED
  | REPUTATION_BASED
  | STATE_CHANGE
deriving DecidableEq, Repr

/-- The `.value` string of each `ConnectionType` member. -/
def ConnectionType.value : ConnectionType → String
  | .SIMPLE => "simple"
  | .CONDITIONAL => "conditional"
  | .PREREQUISITE => "prerequisite"
  | .DEPENDENCY => "dependency"
  | .CHOICE => "choice"
  | .RESOURCE_GATED => "resource_gated"
  | .TIME_BASED => "time_based"
  | .REPUTATION_BASED => "reputation_based"
  | .STATE_CHANGE => "state_change"

/-- `ConnectionType(s)`: the enum member whose value is `s`, or `none`
(Python raises `ValueError`, which `import_connections` catches). -/
def ConnectionType.ofValue : String → Option ConnectionType
  | "simple" => some .SIMPLE
  | "conditional" => some .CONDITIONAL
  | "prerequisite" => some .PREREQUISITE
  | "dependency" => some .DEPENDENCY
  | "choice" => some .CHOICE
  | "resource_gated" => some .RESOURCE_GATED
  | "time_based" => some .TIME_BASED
  | "reputation_based" => some .REPUTATION_BASED
  | "state_change" => some .STATE_CHANGE
  | _ => none

/-- `Port` dataclass (display position omitted). -/
structure Port where
  id : String := ""
  name : String := ""
  port_type : String := ""
  data_type : String := ""
  connected_to : List String := []
  connection_limit : Int := -1
  required : Bool := false
deriving DecidableEq, Repr

/-- `Connection` dataclass.  The `Any`-valued `state_changes` payload is
modelled with opaque `String` values; the algorithms only pass it through. -/
structure Connection where
  id : String := ""
  from_node : String := ""
  to_node : String := ""
  from_port : String := ""
  to_port : String := ""
  connection_type : ConnectionType := .SIMPLE
  condition : String := ""
  priority : Int := 0
  required_resources : List (String × Int) := []
  required_flags : List String := []
  required_reputation : List (String × Int) := []
  time_condition : String := ""
  state_changes : List (String × String) := []
  reputation_changes : List (String × Int) := []
deriving DecidableEq, Repr

/-- `BaseNode` dataclass restricted to the fields the graph algorithms read
(ids, title, ports, condition strings); geometry/color/properties are
presentation-only. -/
structure BaseNode where
  id : String := ""
  title : String := ""
  ports : List Port := []
  conditions : List String := []
deriving DecidableEq, Repr

/-! ### Ordered dictionaries (Python `dict` semantics) -/

/-- Ordered association list standing for a Python `dict` keyed by strings. -/
abbrev Dict (α : Type) := List (String × α)

/-- `d[k]` / `d.get(k)`: first value stored under `k`. -/
def dictLookup (l : Dict α) (k : String) : Option α :=
  (l.find? (fun p => p.1 = k)).map (fun p => p.2)

/-- `d[k] = v`: replace in place if `k` is present, else append. -/
def dictInsert (l : Dict α) (k : String) (v : α) : Dict α :=
  if l.any (fun p => p.1 = k) then
    l.map (fun p => if p.1 = k then (k, v) else p)
  else
    l ++ [(k, v)]

/-- `del d[k]` (keys are unique under the dict discipline). -/
def dictRemove (l : Dict α) (k : String) : Dict α :=
  l.filter (fun p => ¬ p.1 = k)

/-- `d.keys()` in insertion order. -/
def dictKeys (l : Dict α) : List String :=
  l.map (fun p => p.1)

/-- `d.values()` in insertion order. -/
def dictValues (l : Dict α) : List α :=
  l.map (fun p => p.2)

/-! ### NodeManager (the Graph Store) -/

/-- Mutable state of `NodeManager` (the UI callbacks are side channels and
are not part of the state). -/
structure NMState where
  nodes : Dict BaseNode := []
  connections : Dict Connection := []
  next_id : Nat := 1
deriving DecidableEq, Repr

/-- The freshly constructed `NodeManager()`. -/
def NMState.empty : NMState := {}

/-- `next((p for p in node.ports if p.id == pid), None)`. -/
def findPort (n : BaseNode) (pid : String) : Option Port :=
  n.ports.find? (fun p => p.id = pid)

/-- Apply `f` to the first port of `ps` whose id is `pid` (Python mutates
the object returned by `next(...)`). -/
def updateFirstPort (ps : List Port) (pid : String) (f : Port → Port) : List Port :=
  match ps with
  | [] => []
  | p :: rest => if p.id = pid then f p :: rest else p :: updateFirstPort rest pid f

/-- Mutate, inside the node stored under `nid`, the first port with id
`pid`.  Unknown node id or port id leaves the state unchanged. -/
def updateNodePort (s : NMState) (nid pid : String) (f : Port → Port) : NMState :=
  { s with nodes :=
      s.nodes.map (fun kv =>
        if kv.1 = nid then (kv.1, { kv.2 with ports := updateFirstPort kv.2.ports pid f })
        else kv) }

/-- `NodeManager.add_node`: assign `node_{next_id}` when the id is empty,
then insert into the node map. -/
def addNode (s : NMState) (node : BaseNode) : BaseNode × NMState :=
  let (node, s) :=
    if node.id = "" then
      (({ node with id := "node_" ++ toString s.next_id } : BaseNode),
       { s with next_id := s.next_id + 1 })
    else (node, s)
  (node, { s with nodes := dictInsert s.nodes node.id node })

/-- `NodeManager.remove_node`: `False` when the id is unknown; otherwise a
snapshot of the incident connection ids is deleted from the connection map
and the node is deleted.  The source never touches any surviving port's
`connected_to` list here. -/
def removeNode (s : NMState) (node_id : String) : Bool × NMState :=
  if s.nodes.any (fun p => p.1 = node_id) then
    (true,
      { s with
        nodes := dictRemove s.nodes node_id,
        connections :=
          s.connections.filter
            (fun kv => ¬ (kv.2.from_node = node_id ∨ kv.2.to_node = node_id)) })
  else
    (false, s)

/-- `NodeManager.add_connection`.  The fresh `uuid4` id and the keyword
payload of the constructed `Connection` are abstracted into the `base`
argument; the source overrides its endpoint fields exactly as the
constructor call does. -/
def addConnection (s : NMState) (from_node_id from_port_id to_node_id to_port_id : String)
    (base : Connection) : Option Connection × NMState :=
  match dictLookup s.nodes from_node_id, dictLookup s.nodes to_node_id with
  | some from_node, some to_node =>
    match findPort from_node from_port_id, findPort to_node to_port_id with
    | some from_port, some _ =>
      if 0 < from_port.connection_limit ∧
          from_port.connection_limit ≤ (from_port.connected_to.length : Int) then
        (none, s)
      else
        let connection : Connection :=
          { base with
            from_node := from_node_id, to_node := to_node_id,
            from_port := from_port_id, to_port := to_port_id }
        let s1 := { s with connections := dictInsert s.connections connection.id connection }
        let s2 := updateNodePort s1 from_node_id from_port_id
          (fun p => { p with connected_to := p.connected_to ++ [to_port_id] })
        let s3 := updateNodePort s2 to_node_id to_port_id
          (fun p => { p with connected_to := p.connected_to ++ [from_port_id] })
        (some connection, s3)
    | _, _ => (none, s)
  | _, _ => (none, s)

/-- `NodeManager.remove_connection`: ports are cleaned only when *both*
endpoint nodes still exist; `list.remove` drops the first occurrence and is
guarded by a membership test (`List.erase`). -/
def removeConnection (s : NMState) (connection_id : String) : Bool × NMState :=
  match dictLookup s.connections connection_id with
  | none => (false, s)
  | some connection =>
    let s1 :=
      match dictLookup s.nodes connection.from_node, dictLookup s.nodes connection.to_node with
      | some _, some _ =>
        let sA := updateNodePort s connection.from_node connection.from_port
          (fun p => { p with connected_to := p.connected_to.erase connection.to_port })
        updateNodePort sA connection.to_node connection.to_port
          (fun p => { p with connected_to := p.connected_to.erase connection.from_port })
      | _, _ => s
    (true, { s1 with connections := dictRemove s1.connections connection_id })

/-! ### Consistency of the connection map and the port peer lists

The global Graph Store invariant claimed by the spec: each connection
contributes its destination port id to its source port's `connected_to`
list and its source port id to its destination port's list, exactly once,
and nothing else appears in any `connected_to` list. -/

/-- Peer entries a port `(nid, pid)` ought to carry according to the
connection map: one entry per connection leaving it plus one per connection
arriving at it. -/
def expectedPeers (s : NMState) (nid pid : String) : List String :=
  (s.connections.filter (fun kv => kv.2.from_node = nid ∧ kv.2.from_port = pid)).map
      (fun kv => kv.2.to_port)
    ++ (s.connections.filter (fun kv => kv.2.to_node = nid ∧ kv.2.to_port = pid)).map
      (fun kv => kv.2.from_port)

/-- Mutual consistency of the connection map and the ports' peer lists:
every port's `connected_to` list agrees, as a multiset, with the entries
demanded by the connection map. -/
def consistent (s : NMState) : Prop :=
  ∀ kv ∈ s.nodes, ∀ p ∈ kv.2.ports,
    (p.connected_to : Multiset String) = (expectedPeers s kv.1 p.id : Multiset String)

instance (s : NMState) : Decidable (consistent s) := by
  unfold consistent; infer_instance

/-- The failure conditions of `add_connection` named by the spec: an unknown
endpoint node id, a port id that does not belong to its claimed node, or a
source port whose positive connection limit already equals its
`connected_to` length. -/
def addConnFails (s : NMState) (fn fp tn tp : String) : Prop :=
  dictLookup s.nodes fn = none ∨
  dictLookup s.nodes tn = none ∨
  ((dictLookup s.nodes fn).bind (fun N => findPort N fp)) = none ∨
  ((dictLookup s.nodes tn).bind (fun N => findPort N tp)) = none ∨
  ((dictLookup s.nodes fn).bind (fun N => findPort N fp)).any
    (fun p => decide (0 < p.connection_limit ∧
      (p.connected_to.length : Int) = p.connection_limit)) = true

instance (s : NMState) (fn fp tn tp : String) : Decidable (addConnFails s fn fp tn tp) := by
  unfold addConnFails; infer_instance

/-! ### Concrete graph fixtures -/

/-- Node `A` with one unlimited output port `pa`. -/
def nodeA : BaseNode := { id := "A", title := "A", ports := [{ id := "pa", port_type := "output" }] }

/-- Node `B` with one unlimited input port `pb`. -/
def nodeB : BaseNode := { id := "B", title := "B", ports := [{ id := "pb", port_type := "input" }] }

/-- Node `C` with one unlimited output port `pc`. -/
def nodeC : BaseNode := { id := "C", title := "C", ports := [{ id := "pc", port_type := "output" }] }

/-- Node `B` variant whose input port `pb` carries `connection_limit = 1`. -/
def nodeBCap : BaseNode :=
  { id := "B", title := "B", ports := [{ id := "pb", port_type := "input", connection_limit := 1 }] }

/-- Store holding `A` and `B`, built from the empty store by `add_node`. -/
def stateA_B : NMState := (addNode (addNode NMState.empty nodeA).2 nodeB).2

/-- `stateA_B` after the successful `add_connection A.pa -> B.pb` (id `c1`). -/
def stateAB : NMState := (addConnection stateA_B "A" "pa" "B" "pb" { id := "c1" }).2

/-- Store holding `A`, the capped `B` and `C`, built by `add_node`. -/
def stateLim0 : NMState :=
  (addNode (addNode (addNode NMState.empty nodeA).2 nodeBCap).2 nodeC).2

/-- First connection into the capped port: `A.pa -> B.pb` (id `c1`). -/
def limStep1 : Option Connection × NMState :=
  addConnection stateLim0 "A" "pa" "B" "pb" { id := "c1" }

/-- Second connection into the capped port: `C.pc -> B.pb` (id `c2`). -/
def limStep2 : Option Connection × NMState :=
  addConnection limStep1.2 "C" "pc" "B" "pb" { id := "c2" }

/-- Node `X` with output port `px` of limit 1 (spec scenario). -/
def nodeX : BaseNode :=
  { id := "X", title := "X", ports := [{ id := "px", port_type := "output", connection_limit := 1 }] }

/-- Node `Y` with input port `py`. -/
def nodeY : BaseNode := { id := "Y", title := "Y", ports := [{ id := "py", port_type := "input" }] }

/-- Node `Z` with input port `pz`. -/
def nodeZ : BaseNode := { id := "Z", title := "Z", ports := [{ id := "pz", port_type := "input" }] }

/-- Store holding `X`, `Y`, `Z`. -/
def stateXYZ : NMState :=
  (addNode (addNode (addNode NMState.empty nodeX).2 nodeY).2 nodeZ).2

/-- `stateXYZ` after the successful `add_connection X.px -> Y.py` (id `c1`). -/
def stateXY : NMState := (addConnection stateXYZ "X" "px" "Y" "py" { id := "c1" }).2

/-- `nodeA` carrying a stale peer entry `pb` on its port `pa`. -/
def nodeAStale : BaseNode :=
  { id := "A", title := "A",
    ports := [{ id := "pa", port_type := "output", connected_to := ["pb"] }] }

/-- A connection `c1 : A.pa -> B.pb` whose destination node `B` is gone. -/
def staleConn : Connection :=
  { id := "c1", from_node := "A", to_node := "B", from_port := "pa", to_port := "pb" }

/-- A store holding `staleConn` while node `B` is absent from the node map. -/
def staleState : NMState :=
  { nodes := [("A", nodeAStale)], connections := [("c1", staleConn)] }

/-! ### detect_circular_dependencies (NodeManager)

`has_cycle` recurses through the prerequisite/dependency edges keeping a
`visited` set and a `rec_stack` set.  When it re-enters a node that is in
`rec_stack`, the source calls `path.index(temp_node)` *unguarded*: if that
node is not on the current `path` (possible, because after a cycle is
found every frame returns `True` early and the `rec_stack.remove` calls
are skipped, leaving stale entries for later roots), Python raises
`ValueError`.  The embedding returns `Except`; recursion is bounded by a
fuel argument.  Every nested `has_cycle` call either returns at once or
adds a previously unvisited node id to `visited`, so the recursion depth
is at most the number of distinct node ids mentioned by the store plus
two; the chosen fuel `2*|connections| + |nodes| + 2` dominates that, so
`fuelOut` is never produced. -/

/-- Abnormal outcomes of `detect_circular_dependencies`: `indexError` is
Python's `ValueError` from the unguarded `path.index`; `fuelOut` is the
embedding's recursion bound (unreachable for the chosen fuel). -/
inductive DcdErr where
  | indexError
  | fuelOut
deriving DecidableEq, Repr

/-- Closure state of `detect_circular_dependencies`: the `cycles`
accumulator and the `visited` / `rec_stack` sets (lists used up to
membership). -/
structure DcdState where
  cycles : List (List String) := []
  visited : List String := []
  recStack : List String := []
deriving DecidableEq, Repr

/-- `s.add(v)` on a Python set modelled as a list. -/
def setAdd (l : List String) (v : String) : List String :=
  if v ∈ l then l else l ++ [v]

/-- `conn.connection_type in [ConnectionType.PREREQUISITE, ConnectionType.DEPENDENCY]`. -/
def isPrereqDep (c : Connection) : Bool :=
  c.connection_type = ConnectionType.PREREQUISITE ∨
    c.connection_type = ConnectionType.DEPENDENCY

/-- The `for conn in self.connections.values()` loop of `has_cycle`:
follow each prerequisite/dependency edge leaving `v` with `visit`,
aborting as soon as a recursive call reports a cycle (so
`rec_stack.remove` is skipped). -/
def dcdEdges (visit : String → List String → DcdState → Except DcdErr (DcdState × Bool)) :
    List Connection → String → List String → DcdState → Except DcdErr (DcdState × Bool)
  | [], _, _, st => .ok (st, false)
  | c :: rest, v, path, st =>
    if c.from_node = v ∧ isPrereqDep c then
      match visit c.to_node (path ++ [v]) st with
      | .error e => .error e
      | .ok (st2, true) => .ok (st2, true)
      | .ok (st2, false) => dcdEdges visit rest v path st2
    else
      dcdEdges visit rest v path st

/-- `has_cycle(temp_node_id, path)` (structural on the fuel). -/
def dcdVisit (conns : List Connection) : Nat → String → List String → DcdState →
    Except DcdErr (DcdState × Bool)
  | 0, _, _, _ => .error .fuelOut
  | fuel + 1, v, path, st =>
    if v ∈ st.recStack then
      if v ∈ path then
        .ok ({ st with cycles := st.cycles ++ [path.drop (path.indexOf v) ++ [v]] }, true)
      else
        .error .indexError
    else if v ∈ st.visited then
      .ok (st, false)
    else
      match dcdEdges (dcdVisit conns fuel) conns v path
          { st with visited := setAdd st.visited v, recStack := setAdd st.recStack v } with
      | .error e => .error e
      | .ok (st2, true) => .ok (st2, true)
      | .ok (st2, false) => .ok ({ st2 with recStack := st2.recStack.erase v }, false)

/-- `NodeManager.detect_circular_dependencies`: run `has_cycle` from every
node key not yet visited (the Boolean result is ignored, the shared state
is kept); a `ValueError` aborts the whole call. -/
def detectCircularDependencies (s : NMState) : Except DcdErr (List (List String)) :=
  let fuel := 2 * s.connections.length + s.nodes.length + 2
  (((dictKeys s.nodes).foldlM (fun st nid =>
      if nid ∈ st.visited then pure st
      else (dcdVisit (dictValues s.connections) fuel nid [] st).map (fun r => r.1))
    ({} : DcdState)).map (fun st => st.cycles))

/-- Two prerequisite edges forming the cycle `A -> B -> A`. -/
def cyclesOkState : NMState :=
  { nodes := [("A", { id := "A" }), ("B", { id := "B" })],
    connections :=
      [("c1", { id := "c1", from_node := "A", to_node := "B",
                connection_type := ConnectionType.PREREQUISITE }),
       ("c2", { id := "c2", from_node := "B", to_node := "A",
                connection_type := ConnectionType.PREREQUISITE })] }

/-- `cyclesOkState` plus a third node `X` with a prerequisite edge into the
cycle.  After the DFS rooted at `A` finds the cycle, `A` and `B` stay on
`rec_stack`; the DFS rooted at `X` then reaches `A` and `path.index("A")`
on the path `["X"]` raises `ValueError`. -/
def cyclesCrashState : NMState :=
  { nodes := [("A", { id := "A" }), ("B", { id := "B" }), ("X", { id := "X" })],
    connections :=
      [("c1", { id := "c1", from_node := "A", to_node := "B",
                connection_type := ConnectionType.PREREQUISITE }),
       ("c2", { id := "c2", from_node := "B", to_node := "A",
                connection_type := ConnectionType.PREREQUISITE }),
       ("c3", { id := "c3", from_node := "X", to_node := "A",
                connection_type := ConnectionType.PREREQUISITE })] }

/-! ### export_connections / import_connections -/

/-- One entry of the JSON list produced by `export_connections` — the
exact key set written by the source (for data coming from an export every
key is present, so the `.get` defaults of `import_connections` are
irrelevant and the per-item `try/except` can never fire). -/
structure ConnData where
  id : String
  from_node : String
  to_node : String
  from_port : String
  to_port : String
  connection_type : String
  condition : String
  priority : Int
  required_resources : List (String × Int)
  required_flags : List String
  required_reputation : List (String × Int)
  time_condition : String
  state_changes : List (String × String)
  reputation_changes : List (String × Int)
deriving DecidableEq, Repr

/-- The dict built for one connection by `export_connections`. -/
def connectionData (c : Connection) : ConnData :=
  { id := c.id, from_node := c.from_node, to_node := c.to_node,
    from_port := c.from_port, to_port := c.to_port,
    connection_type := c.connection_type.value,
    condition := c.condition, priority := c.priority,
    required_resources := c.required_resources,
    required_flags := c.required_flags,
    required_reputation := c.required_reputation,
    time_condition := c.time_condition,
    state_changes := c.state_changes,
    reputation_changes := c.reputation_changes }

/-- `NodeManager.export_connections`. -/
def exportConnections (s : NMState) : List ConnData :=
  (dictValues s.connections).map connectionData

/-- The `Connection(...)` constructed by `import_connections` from one data
item (an unknown `connection_type` string falls back to `SIMPLE`). -/
def connOfData (d : ConnData) : Connection :=
  { id := d.id, from_node := d.from_node, to_node := d.to_node,
    from_port := d.from_port, to_port := d.to_port,
    connection_type := (ConnectionType.ofValue d.connection_type).getD ConnectionType.SIMPLE,
    condition := d.condition, priority := d.priority,
    required_resources := d.required_resources,
    required_flags := d.required_flags,
    required_reputation := d.required_reputation,
    time_condition := d.time_condition,
    state_changes := d.state_changes,
    reputation_changes := d.reputation_changes }

/-- `(self.nodes.get(nid))` then `next((p for p in n.ports if p.id == pid), None)`. -/
def getPort (s : NMState) (nid pid : String) : Option Port :=
  (dictLookup s.nodes nid).bind (fun n => findPort n pid)

/-- `if x not in port.connected_to: port.connected_to.append(x)` on the
first port `pid` of node `nid`. -/
def appendPeerIfMissing (s : NMState) (nid pid x : String) : NMState :=
  updateNodePort s nid pid
    (fun p => if x ∈ p.connected_to then p else { p with connected_to := p.connected_to ++ [x] })

/-- One iteration of the `import_connections` loop: store the connection,
then — only if both endpoint nodes and both ports are found — re-establish
the two peer-list entries. -/
def importStep (st : NMState) (d : ConnData) : NMState :=
  let connection := connOfData d
  let st1 := { st with connections := dictInsert st.connections connection.id connection }
  match dictLookup st1.nodes connection.from_node, dictLookup st1.nodes connection.to_node with
  | some fn, some tn =>
    match findPort fn connection.from_port, findPort tn connection.to_port with
    | some _, some _ =>
      let st2 := appendPeerIfMissing st1 connection.from_node connection.from_port connection.to_port
      appendPeerIfMissing st2 connection.to_node connection.to_port connection.from_port
    | _, _ => st1
  | _, _ => st1

/-- `NodeManager.import_connections`: clear the connection map, then fold
the items in order. -/
def importConnections (s : NMState) (datas : List ConnData) : NMState :=
  datas.foldl importStep { s with connections := [] }

/-- The port `(nid, pid)` exists and lists `x` among its peers. -/
def peerListed (s : NMState) (nid pid x : String) : Bool :=
  (getPort s nid pid).any (fun p => x ∈ p.connected_to)

/-- Round-trip fixture: nodes `A`/`B` whose ports have *empty* peer lists
while the store holds the resource-gated connection `c1 : A.pa -> B.pb`
(so the import has to re-establish the peer entries). -/
def sRTconn : Connection :=
  { id := "c1", from_node := "A", to_node := "B",
    from_port := "pa", to_port := "pb",
    connection_type := ConnectionType.RESOURCE_GATED,
    required_resources := [("gold", 100)] }

def sRT : NMState :=
  { nodes := [("A", nodeA), ("B", nodeB)],
    connections := [("c1", sRTconn)] }

/-! ### Condition syntax checking (`dialogs.py`) -/

/-- Characters stripped by Python `str.strip()` (the ASCII whitespace;
the condition strings of this development are ASCII). -/
def isPyWhitespace (c : Char) : Bool :=
  c = ' ' ∨ c = '\t' ∨ c = '\n' ∨ c = '\r' ∨ c = '\x0b' ∨ c = '\x0c'

/-- Python `s.strip()`. -/
def pyStrip (s : String) : String :=
  String.mk (((s.data.dropWhile isPyWhitespace).reverse.dropWhile isPyWhitespace).reverse)

/-- The `valid_patterns` whitelist of `_is_valid_condition`. -/
def validPatterns : List String :=
  ["player.level", "player.gold", "player.", "flags.", "reputation.",
   ">", "<", ">=", "<=", "==", "!=", "and", "or", "not",
   "True", "False", "has_item", "quest_completed"]

/-- Python `needle in hay` on strings (substring containment). -/
def strContains (hay needle : String) : Bool :=
  decide (needle.data <:+: hay.data)

/-- `ValidationDialog._is_valid_condition`. -/
def isValidCondition (condition : String) : Bool :=
  if condition = "" ∨ pyStrip condition = "" then true
  else validPatterns.any (fun pattern => strContains condition pattern)

/-- One finding of `_validate_conditions` (the constant title/description
strings are dropped; the owner id and the offending condition are kept). -/
inductive CondIssue where
  | node (node_id condition : String)
  | conn (conn_id condition : String)
deriving DecidableEq, Repr

/-- `ValidationDialog._validate_conditions`: the node loop appends one
error per invalid node condition, then the connection loop appends one
error per connection whose condition is truthy and invalid; the sequence
of appends is the concatenation written here. -/
def validateConditions (nodes : Dict BaseNode) (connections : Dict Connection) :
    List CondIssue :=
  (nodes.bind (fun kv =>
      (kv.2.conditions.filter (fun c => ¬ isValidCondition c)).map (CondIssue.node kv.1)))
    ++ connections.bind (fun kv =>
      if kv.2.condition ≠ "" ∧ isValidCondition kv.2.condition = false then
        [CondIssue.conn kv.1 kv.2.condition]
      else [])

/-- Fixture for the condition checks: node `N` carries one invalid and one
empty condition, connection `c` carries a valid one. -/
def nodeN : BaseNode := { id := "N", title := "N", conditions := ["xyz", ""] }

def condNodes : Dict BaseNode := [("N", nodeN)]

def condConns : Dict Connection := [("c", { id := "c", condition := "player.gold > 10" })]

/-! ### Full-graph circular-dependency validation (`dialogs.py`)

`_validate_circular_dependencies` builds an ordered adjacency dict over
*all* connections (the `connection_map` it also builds never influences
the findings and is omitted), then runs a three-color DFS.  A finding's
constant strings are dropped; its `nodes_involved` list is kept.  The
recursion is fuel-bounded: every nested `dfs_visit` call either returns at
one of the two color checks or colors a previously white node gray, so the
depth never exceeds the number of distinct node ids in the graph plus one,
and the chosen fuel `2*|connections| + 2` dominates that. -/

/-- `graph[k].append(v)`, creating `graph[k] = []` first when absent. -/
def adjInsert (g : Dict (List String)) (k v : String) : Dict (List String) :=
  if g.any (fun p => p.1 = k) then
    g.map (fun p => if p.1 = k then (p.1, p.2 ++ [v]) else p)
  else
    g ++ [(k, [v])]

/-- The adjacency dict over a connection list (used with every connection
by the full-graph analysis, and with the same loop shape by
`_validate_unreachable_nodes`). -/
def buildGraph (conns : List Connection) : Dict (List String) :=
  conns.foldl (fun g c => adjInsert g c.from_node c.to_node) []

/-- One circular-dependency finding (`nodes_involved` only). -/
structure CycleIssue where
  nodes_involved : List String
deriving DecidableEq, Repr

/-- Closure state of `_validate_circular_dependencies`: the colors dict
(0 = white, 1 = gray, 2 = black; absent keys read as white) and the
`issues` accumulator. -/
structure VcdState where
  colors : Dict Nat := []
  issues : List CycleIssue := []
deriving DecidableEq, Repr

/-- `colors[v]` with the white default. -/
def colorOf (colors : Dict Nat) (v : String) : Nat :=
  (dictLookup colors v).getD 0

/-- The `for neighbor in graph.get(temp_node, [])` loop of `dfs_visit`:
abort as soon as a recursive call reports a cycle. -/
def vcdNbrs (visit : String → List String → VcdState → VcdState × Bool) :
    List String → List String → VcdState → VcdState × Bool
  | [], _, st => (st, false)
  | nb :: rest, path, st =>
    match visit nb path st with
    | (st2, true) => (st2, true)
    | (st2, false) => vcdNbrs visit rest path st2

/-- `dfs_visit(temp_node, path)`: a gray hit reports a cycle only when the
node is on the current path (the source guards the reconstruction with
`if temp_node in path`) but returns `True` either way. -/
def vcdVisit (graph : Dict (List String)) : Nat → String → List String → VcdState →
    VcdState × Bool
  | 0, _, _, st => (st, false)
  | fuel + 1, v, path, st =>
    if colorOf st.colors v = 1 then
      (if v ∈ path then
        { st with issues := st.issues ++ [⟨path.drop (path.indexOf v)⟩] }
      else st, true)
    else if colorOf st.colors v = 2 then
      (st, false)
    else
      match vcdNbrs (vcdVisit graph fuel) ((dictLookup graph v).getD []) (path ++ [v])
          { st with colors := dictInsert st.colors v 1 } with
      | (st2, true) => (st2, true)
      | (st2, false) => ({ st2 with colors := dictInsert st2.colors v 2 }, false)

/-- `_validate_circular_dependencies`: DFS from every graph key that is
still white, sharing colors and issues; the Boolean result is ignored. -/
def validateCircularDependencies (conns : Dict Connection) : List CycleIssue :=
  let graph := buildGraph (dictValues conns)
  let fuel := 2 * (dictValues conns).length + 2
  ((dictKeys graph).foldl (fun st node =>
      if colorOf st.colors node = 0 then (vcdVisit graph fuel node [] st).1 else st)
    ({} : VcdState)).issues

/-- Simple-category cycle `A -> B -> C -> A`. -/
def cyc3 : Dict Connection :=
  [("c1", { id := "c1", from_node := "A", to_node := "B" }),
   ("c2", { id := "c2", from_node := "B", to_node := "C" }),
   ("c3", { id := "c3", from_node := "C", to_node := "A" })]

/-- Acyclic graph on the same three nodes with three simple edges. -/
def dag3 : Dict Connection :=
  [("c1", { id := "c1", from_node := "A", to_node := "B" }),
   ("c2", { id := "c2", from_node := "B", to_node := "C" }),
   ("c3", { id := "c3", from_node := "A", to_node := "C" })]

/-! ### Unreachable-node validation (`dialogs.py`) -/

/-- One unreachable-node finding (`node_id` only). -/
structure UnreachIssue where
  node_id : String
deriving DecidableEq, Repr

/-- The `incoming` set: every connection's target node id. -/
def incomingOf (conns : List Connection) : List String :=
  conns.foldl (fun acc c => setAdd acc c.to_node) []

/-- The recursive `dfs` of `_validate_unreachable_nodes`, accumulating the
`reachable` set (fuel-bounded; every nested call either returns at the
membership check or grows `reachable` by a new node, so the chosen fuel
dominates the recursion depth). -/
def unrDfs (graph : Dict (List String)) : Nat → String → List String → List String
  | 0, _, reach => reach
  | fuel + 1, v, reach =>
    if v ∈ reach then reach
    else ((dictLookup graph v).getD []).foldl (fun r nb => unrDfs graph fuel nb r)
      (reach ++ [v])

/-- Union of the DFS-reachable sets from every start candidate: the nodes
with no incoming connection or, when there are none, the store's first
node (the source takes `next(iter(all_nodes))` from a CPython set; the
embedding fixes the choice to the first key). -/
def reachableUnion (nodes : Dict BaseNode) (conns : List Connection) : List String :=
  let graph := buildGraph conns
  let fuel := 2 * conns.length + nodes.length + 2
  let incoming := incomingOf conns
  let starts0 := (dictKeys nodes).filter (fun k => ¬ k ∈ incoming)
  let starts := if starts0 = [] then (dictKeys nodes).take 1 else starts0
  starts.foldl (fun r st => unrDfs graph fuel st r) []

/-- `_validate_unreachable_nodes`: early-out on an empty node or
connection map, else one warning per node outside the reachable union
(the source iterates a CPython set; the embedding iterates the keys in
insertion order — the findings are compared up to membership/count). -/
def validateUnreachableNodes (nodes : Dict BaseNode) (conns : Dict Connection) :
    List UnreachIssue :=
  if nodes.isEmpty ∨ conns.isEmpty then []
  else
    ((dictKeys nodes).filter
        (fun k => ¬ k ∈ reachableUnion nodes (dictValues conns))).map
      (fun k => UnreachIssue.mk k)

/-- Fixture for unreachable detection: start component `A -> B` plus the
two-node cycle `D <-> E` that no start candidate can reach. -/
def unrNodes : Dict BaseNode :=
  [("A", { id := "A", title := "A" }), ("B", { id := "B", title := "B" }),
   ("D", { id := "D", title := "D" }), ("E", { id := "E", title := "E" })]

def unrConns : Dict Connection :=
  [("c1", { id := "c1", from_node := "A", to_node := "B" }),
   ("c2", { id := "c2", from_node := "D", to_node := "E" }),
   ("c3", { id := "c3", from_node := "E", to_node := "D" })]

/-- `unrConns` plus an inbound edge from the reachable node `B` to `D`. -/
def unrConns2 : Dict Connection :=
  unrConns ++ [("c4", { id := "c4", from_node := "B", to_node := "D" })]

/-! ## Theorems -/

/-- `updateNodePort` never touches the connection map. -/
theorem updateNodePort_connections (s : NMState) (nid pid : String) (f : Port → Port) :
    (updateNodePort s nid pid f).connections = s.connections := rfl

/-- Looking a key up after `dictRemove`-ing it yields `none`. -/
theorem dictLookup_dictRemove_self (l : Dict α) (k : String) :
    dictLookup (dictRemove l k) k = none := by
  have h : (dictRemove l k).find? (fun p => p.1 = k) = none := by
    rw [List.find?_eq_none]
    intro x hx
    simp only [dictRemove, List.mem_filter, decide_eq_true_eq] at hx
    simp [hx.2]
  simp [dictLookup, h]

/-- C1.  The spec's global Graph Store consistency invariant is broken by
`remove_node`: starting from the empty store, adding nodes `A` and `B`,
connecting `A.pa -> B.pb` and then removing `B` yields a state in which
`pa.connected_to` still lists `pb` although no connection exists any more
(`remove_node` deletes incident connections from the connection map only
and never cleans the surviving ports' peer lists). -/
theorem remove_node_breaks_port_consistency :
    consistent stateAB ∧
    (removeNode stateAB "B").1 = true ∧
    ¬ consistent (removeNode stateAB "B").2 :=
  ⟨by decide, by decide, by decide⟩

/-- C2.  The destination port's connection limit is not enforced: in
`limStep2` the capped input port `B.pb` (limit 1) receives a second inbound
connection, both `add_connection` calls succeed, and afterwards
`len(pb.connected_to) = 2 > 1` (`add_connection` only checks the source
port's limit). -/
theorem destination_limit_not_enforced :
    limStep1.1.isSome = true ∧ limStep2.1.isSome = true ∧
    ((dictLookup limStep2.2.nodes "B").bind (fun n => findPort n "pb")).map
        (fun p => (p.connection_limit, (p.connected_to.length : Int))) = some (1, 2) ∧
    (1 : Int) < 2 :=
  ⟨rfl, rfl, rfl, by decide⟩

/-- C4.  `remove_node` on an unknown id returns `false` and changes
nothing, and on success removes the node and exactly its incident
connections — but it leaves a dangling peer reference on the surviving
port: after removing `B` from `stateAB`, port `pa` of `A` still lists
`pb` while the connection map demands no peer entries at all. -/
theorem remove_node_leaves_dangling_peers :
    removeNode stateAB "missing" = (false, stateAB) ∧
    (removeNode stateAB "B").1 = true ∧
    dictLookup (removeNode stateAB "B").2.nodes "B" = none ∧
    (removeNode stateAB "B").2.connections = [] ∧
    ((dictLookup (removeNode stateAB "B").2.nodes "A").bind (fun n => findPort n "pa")).map
        (fun p => p.connected_to) = some ["pb"] ∧
    expectedPeers (removeNode stateAB "B").2 "A" "pa" = [] :=
  ⟨rfl, rfl, rfl, rfl, rfl, rfl⟩

/-- C3.  `add_connection` fails (returns `none`) under each failure
condition named by the spec — unknown endpoint node id, port id not
belonging to its claimed node, or a source port whose positive connection
limit already equals its peer-list length — and every failing call leaves
the store untouched. -/
theorem addConnection_failure_semantics (s : NMState) (fn fp tn tp : String) (base : Connection) :
    (addConnFails s fn fp tn tp → addConnection s fn fp tn tp base = (none, s)) ∧
    ((addConnection s fn fp tn tp base).1 = none → (addConnection s fn fp tn tp base).2 = s) := by
  constructor
  · intro h
    rcases h1 : dictLookup s.nodes fn with _ | N1 <;>
      rcases h2 : dictLookup s.nodes tn with _ | N2 <;>
        simp only [addConnection, h1, h2]
    rcases h3 : findPort N1 fp with _ | p1 <;>
      rcases h4 : findPort N2 tp with _ | p2 <;>
        simp only [h3, h4]
    rcases h with h | h | h | h | h
    · exact absurd h1 (h ▸ (by simp))
    · exact absurd h2 (h ▸ (by simp))
    · rw [h1] at h; simp [h3] at h
    · rw [h2] at h; simp [h4] at h
    · have h' : 0 < p1.connection_limit ∧
          (p1.connected_to.length : Int) = p1.connection_limit := by
        rw [h1] at h
        simpa [h3] using h
      rw [if_pos ⟨h'.1, le_of_eq h'.2.symm⟩]
  · intro h
    rcases h1 : dictLookup s.nodes fn with _ | N1
    · simp [addConnection, h1]
    · rcases h2 : dictLookup s.nodes tn with _ | N2
      · simp [addConnection, h1, h2]
      · rcases h3 : findPort N1 fp with _ | p1
        · simp [addConnection, h1, h2, h3]
        · rcases h4 : findPort N2 tp with _ | p2
          · simp [addConnection, h1, h2, h3, h4]
          · by_cases hlim : 0 < p1.connection_limit ∧
                p1.connection_limit ≤ (p1.connected_to.length : Int)
            · simp [addConnection, h1, h2, h3, h4, hlim]
            · simp [addConnection, h1, h2, h3, h4, hlim] at h

/-- Witness for C3: in `stateXY` the source port `X.px` (limit 1, one
existing peer) is saturated, so connecting `X -> Z` fails, returns the
store unchanged, and `px`'s peer list still has length 1. -/
theorem addConnection_failure_semantics_witness :
    addConnFails stateXY "X" "px" "Z" "pz" ∧
    addConnection stateXY "X" "px" "Z" "pz" { id := "c2" } = (none, stateXY) ∧
    ((dictLookup stateXY.nodes "X").bind (fun n => findPort n "px")).map
        (fun p => p.connected_to.length) = some 1 :=
  ⟨by decide,
   (addConnection_failure_semantics stateXY "X" "px" "Z" "pz" { id := "c2" }).1 (by decide),
   rfl⟩

/-- C10.  `remove_connection` on a present connection id deletes that
connection and returns `true` even when an endpoint node is missing from
the node map, and in that case the node map — hence every port's
`connected_to` list — is left completely untouched. -/
theorem removeConnection_missing_endpoint (s : NMState) (cid : String) (c : Connection)
    (hc : dictLookup s.connections cid = some c) :
    (removeConnection s cid).1 = true ∧
    (removeConnection s cid).2.connections = dictRemove s.connections cid ∧
    dictLookup (removeConnection s cid).2.connections cid = none ∧
    ((dictLookup s.nodes c.from_node = none ∨ dictLookup s.nodes c.to_node = none) →
      (removeConnection s cid).2.nodes = s.nodes) := by
  rcases h1 : dictLookup s.nodes c.from_node with _ | N1 <;>
    rcases h2 : dictLookup s.nodes c.to_node with _ | N2 <;>
      refine ⟨?_, ?_, ?_, ?_⟩ <;>
      simp only [removeConnection, hc, h1, h2, updateNodePort_connections,
        dictLookup_dictRemove_self] <;>
      intro hmiss
  all_goals try trivial
  all_goals rcases hmiss with hmiss | hmiss <;> simp at hmiss

/-- Witness for C10: removing `c1` from `staleState` (whose destination
node `B` is gone) succeeds, deletes the connection, and leaves node `A`'s
stale peer entry in place. -/
theorem removeConnection_missing_endpoint_witness :
    (removeConnection staleState "c1").1 = true ∧
    (removeConnection staleState "c1").2.connections = dictRemove staleState.connections "c1" ∧
    dictLookup (removeConnection staleState "c1").2.connections "c1" = none ∧
    (removeConnection staleState "c1").2.nodes = staleState.nodes :=
  have h := removeConnection_missing_endpoint staleState "c1" staleConn (by decide)
  ⟨h.1, h.2.1, h.2.2.1, h.2.2.2 (Or.inr (by decide))⟩

/-- C8.  `detect_circular_dependencies` does report the prerequisite cycle
`A -> B -> A` as the node sequence with the closing node repeated at both
ends, but it does not return at all on `cyclesCrashState`: the DFS rooted
at `A` leaves `A`, `B` on the recursion stack, and the DFS rooted at `X`
then hits the stale entry, so the unguarded `path.index` raises
`ValueError` instead of returning the cycles found. -/
theorem detect_circular_dependencies_raises :
    detectCircularDependencies cyclesOkState = .ok [["A", "B", "A"]] ∧
    detectCircularDependencies cyclesCrashState = .error .indexError :=
  ⟨rfl, rfl⟩

/-! ### Lemmas about port lookup under port updates -/

/-- `dictLookup` unfolded one entry. -/
theorem dictLookup_cons (a : String × α) (l : Dict α) (k : String) :
    dictLookup (a :: l) k = if a.1 = k then some a.2 else dictLookup l k := by
  by_cases h : a.1 = k
  · rw [if_pos h]
    unfold dictLookup
    rw [List.find?_cons_of_pos _ (by simp [h])]
    rfl
  · rw [if_neg h]
    unfold dictLookup
    rw [List.find?_cons_of_neg _ (by simp [h])]

/-- Looking up in a dict whose entry `nid` was transformed by `g`. -/
theorem dictLookup_mapIf (l : Dict α) (nid : String) (g : α → α) (k : String) :
    dictLookup (l.map (fun kv => if kv.1 = nid then (kv.1, g kv.2) else kv)) k =
      if k = nid then (dictLookup l k).map g else dictLookup l k := by
  induction l with
  | nil => simp [dictLookup]
  | cons kv rest ih =>
    simp only [List.map_cons]
    by_cases h1 : kv.1 = nid
    · rw [if_pos h1, dictLookup_cons, dictLookup_cons]
      by_cases h2 : kv.1 = k
      · have hk : k = nid := h2 ▸ h1
        simp [h2, hk]
      · simp only [h2, if_neg h2, if_false, ih]
    · rw [if_neg h1, dictLookup_cons, dictLookup_cons]
      by_cases h2 : kv.1 = k
      · have hk : ¬ k = nid := fun hc => h1 (h2.trans hc)
        simp [h2, hk]
      · simp only [h2, if_neg h2, if_false, ih]

/-- `find?` by port id after `updateFirstPort` with an id-preserving `f`. -/
theorem find?_updateFirstPort (ps : List Port) (pid : String) (f : Port → Port)
    (hf : ∀ p, (f p).id = p.id) (pid' : String) :
    (updateFirstPort ps pid f).find? (fun p => p.id = pid') =
      if pid = pid' then (ps.find? (fun p => p.id = pid')).map f
      else ps.find? (fun p => p.id = pid') := by
  induction ps with
  | nil => simp [updateFirstPort]
  | cons p rest ih =>
    have hstep : updateFirstPort (p :: rest) pid f =
        if p.id = pid then f p :: rest else p :: updateFirstPort rest pid f := rfl
    by_cases h1 : p.id = pid
    · rw [hstep, if_pos h1]
      by_cases h2 : pid = pid'
      · have h3 : p.id = pid' := h1.trans h2
        rw [if_pos h2, List.find?_cons_of_pos _ (by simp [hf, h3]),
          List.find?_cons_of_pos _ (by simp [h3])]
        rfl
      · have h3 : ¬ p.id = pid' := fun hc => h2 (h1.symm.trans hc)
        rw [if_neg h2, List.find?_cons_of_neg _ (by simp [hf, h3]),
          List.find?_cons_of_neg _ (by simp [h3])]
    · rw [hstep, if_neg h1]
      by_cases h3 : p.id = pid'
      · have h2 : ¬ pid = pid' := fun hc => h1 (h3.trans hc.symm)
        rw [if_neg h2, List.find?_cons_of_pos _ (by simp [h3]),
          List.find?_cons_of_pos _ (by simp [h3])]
      · rw [List.find?_cons_of_neg _ (by simp [h3]), ih]
        by_cases h2 : pid = pid'
        · rw [if_pos h2, if_pos h2, List.find?_cons_of_neg _ (by simp [h3])]
        · rw [if_neg h2, if_neg h2, List.find?_cons_of_neg _ (by simp [h3])]

/-- `getPort` after `updateNodePort` with an id-preserving update. -/
theorem getPort_updateNodePort (s : NMState) (nid pid : String) (f : Port → Port)
    (hf : ∀ p, (f p).id = p.id) (nid' pid' : String) :
    getPort (updateNodePort s nid pid f) nid' pid' =
      if nid = nid' ∧ pid = pid' then (getPort s nid' pid').map f
      else getPort s nid' pid' := by
  unfold getPort updateNodePort
  dsimp only
  rw [dictLookup_mapIf s.nodes nid (fun n => { n with ports := updateFirstPort n.ports pid f }) nid']
  by_cases h1 : nid' = nid
  · subst h1
    rcases ho : dictLookup s.nodes nid' with _ | n
    · simp
    · simp only [if_true, true_and, Option.map_some', Option.some_bind]
      unfold findPort
      try dsimp only
      exact find?_updateFirstPort n.ports pid f hf pid'
  · have h1' : ¬ (nid = nid' ∧ pid = pid') := fun hc => h1 hc.1.symm
    simp [h1, h1']

/-- The update function used by `appendPeerIfMissing` keeps port ids. -/
theorem appendFun_id (x : String) (p : Port) :
    ((fun p => if x ∈ p.connected_to then p
        else { p with connected_to := p.connected_to ++ [x] }) p).id = p.id := by
  dsimp only
  split <;> rfl

/-- `getPort` after `appendPeerIfMissing`. -/
theorem getPort_appendPeer (s : NMState) (nid pid x nid' pid' : String) :
    getPort (appendPeerIfMissing s nid pid x) nid' pid' =
      if nid = nid' ∧ pid = pid' then
        (getPort s nid' pid').map (fun p =>
          if x ∈ p.connected_to then p else { p with connected_to := p.connected_to ++ [x] })
      else getPort s nid' pid' :=
  getPort_updateNodePort s nid pid _ (appendFun_id x) nid' pid'

/-- `Option.any` through an existence statement. -/
theorem option_any_iff (p : α → Bool) (o : Option α) :
    o.any p = true ↔ ∃ a, o = some a ∧ p a = true := by
  cases o <;> simp [Option.any]

/-- `appendPeerIfMissing` never loses an existing peer entry. -/
theorem peerListed_appendPeer_mono (s : NMState) (nid pid x nid' pid' y : String)
    (h : peerListed s nid' pid' y = true) :
    peerListed (appendPeerIfMissing s nid pid x) nid' pid' y = true := by
  unfold peerListed at h ⊢
  rw [option_any_iff] at h ⊢
  obtain ⟨p, hp, hmem⟩ := h
  rw [decide_eq_true_eq] at hmem
  rw [getPort_appendPeer]
  split
  · refine ⟨_, by rw [hp]; rfl, ?_⟩
    rw [decide_eq_true_eq]
    dsimp only
    split
    · exact hmem
    · exact List.mem_append_left _ hmem
  · exact ⟨p, hp, by rw [decide_eq_true_eq]; exact hmem⟩

/-- `appendPeerIfMissing` establishes the peer entry it is asked for. -/
theorem peerListed_appendPeer_self (s : NMState) (nid pid x : String)
    (h : (getPort s nid pid).isSome = true) :
    peerListed (appendPeerIfMissing s nid pid x) nid pid x = true := by
  unfold peerListed
  rw [option_any_iff]
  obtain ⟨p, hp⟩ := Option.isSome_iff_exists.mp h
  rw [getPort_appendPeer, if_pos ⟨rfl, rfl⟩]
  refine ⟨_, by rw [hp]; rfl, ?_⟩
  rw [decide_eq_true_eq]
  dsimp only
  split
  · assumption
  · exact List.mem_append_right _ (by simp)

/-- `appendPeerIfMissing` keeps the port-existence skeleton. -/
theorem getPort_appendPeer_isSome (s : NMState) (nid pid x nid' pid' : String) :
    (getPort (appendPeerIfMissing s nid pid x) nid' pid').isSome =
      (getPort s nid' pid').isSome := by
  rw [getPort_appendPeer]
  split
  · rw [Option.isSome_map']
  · rfl

/-- Changing only the connection map does not change `getPort`. -/
theorem getPort_setConnections (s : NMState) (cm : Dict Connection) (nid pid : String) :
    getPort { s with connections := cm } nid pid = getPort s nid pid := rfl

/-! ### Lemmas about import_connections -/

/-- The connection-map component of one import iteration. -/
theorem importStep_connections (st : NMState) (d : ConnData) :
    (importStep st d).connections =
      dictInsert st.connections (connOfData d).id (connOfData d) := by
  unfold importStep
  dsimp only
  split
  · split <;> rfl
  · rfl

/-- One import iteration keeps the port-existence skeleton. -/
theorem importStep_isSome (st : NMState) (d : ConnData) (nid pid : String) :
    (getPort (importStep st d) nid pid).isSome = (getPort st nid pid).isSome := by
  unfold importStep
  dsimp only
  split
  · split
    · rw [getPort_appendPeer_isSome, getPort_appendPeer_isSome]
      rfl
    · rfl
  · rfl

/-- One import iteration never loses a peer entry. -/
theorem importStep_mono (st : NMState) (d : ConnData) (nid pid y : String)
    (h : peerListed st nid pid y = true) :
    peerListed (importStep st d) nid pid y = true := by
  unfold importStep
  dsimp only
  split
  · split
    · exact peerListed_appendPeer_mono _ _ _ _ _ _ _
        (peerListed_appendPeer_mono _ _ _ _ _ _ _ h)
    · exact h
  · exact h

/-- One import iteration reconciles the two peer entries of its own
connection whenever both endpoints resolve. -/
theorem importStep_establishes (st : NMState) (d : ConnData)
    (hf : (getPort st (connOfData d).from_node (connOfData d).from_port).isSome = true)
    (ht : (getPort st (connOfData d).to_node (connOfData d).to_port).isSome = true) :
    peerListed (importStep st d) (connOfData d).from_node (connOfData d).from_port
        (connOfData d).to_port = true ∧
    peerListed (importStep st d) (connOfData d).to_node (connOfData d).to_port
        (connOfData d).from_port = true := by
  obtain ⟨pF, hpF⟩ := Option.isSome_iff_exists.mp hf
  obtain ⟨pT, hpT⟩ := Option.isSome_iff_exists.mp ht
  unfold getPort at hpF hpT
  rcases hnF : dictLookup st.nodes (connOfData d).from_node with _ | NF
  · rw [hnF] at hpF; simp at hpF
  rcases hnT : dictLookup st.nodes (connOfData d).to_node with _ | NT
  · rw [hnT] at hpT; simp at hpT
  rw [hnF, Option.some_bind] at hpF
  rw [hnT, Option.some_bind] at hpT
  unfold importStep
  dsimp only
  simp only [hnF, hnT, hpF, hpT]
  constructor
  · exact peerListed_appendPeer_mono _ _ _ _ _ _ _
      (peerListed_appendPeer_self _ _ _ _ hf)
  · refine peerListed_appendPeer_self _ _ _ _ ?_
    rw [getPort_appendPeer_isSome]
    exact ht

/-- Connection-map component of the whole import fold. -/
theorem importFold_connections (datas : List ConnData) :
    ∀ st : NMState, (datas.foldl importStep st).connections =
      datas.foldl (fun acc d => dictInsert acc (connOfData d).id (connOfData d))
        st.connections := by
  induction datas with
  | nil => intro st; rfl
  | cons d rest ih =>
    intro st
    simp only [List.foldl_cons]
    rw [ih, importStep_connections]

/-- The import fold keeps the port-existence skeleton. -/
theorem importFold_isSome (datas : List ConnData) (nid pid : String) :
    ∀ st : NMState,
      (getPort (datas.foldl importStep st) nid pid).isSome = (getPort st nid pid).isSome := by
  induction datas with
  | nil => intro st; rfl
  | cons d rest ih =>
    intro st
    simp only [List.foldl_cons]
    rw [ih, importStep_isSome]

/-- The import fold never loses a peer entry. -/
theorem importFold_mono (datas : List ConnData) (nid pid y : String) :
    ∀ st : NMState, peerListed st nid pid y = true →
      peerListed (datas.foldl importStep st) nid pid y = true := by
  induction datas with
  | nil => exact fun st h => h
  | cons d rest ih =>
    intro st h
    exact ih _ (importStep_mono _ _ _ _ _ h)

/-- Every item of the import whose endpoints resolve ends up with both
peer entries present in the final store. -/
theorem importFold_establishes (datas : List ConnData) :
    ∀ st : NMState, ∀ d ∈ datas,
      (getPort st (connOfData d).from_node (connOfData d).from_port).isSome = true →
      (getPort st (connOfData d).to_node (connOfData d).to_port).isSome = true →
      peerListed (datas.foldl importStep st) (connOfData d).from_node (connOfData d).from_port
          (connOfData d).to_port = true ∧
      peerListed (datas.foldl importStep st) (connOfData d).to_node (connOfData d).to_port
          (connOfData d).from_port = true := by
  induction datas with
  | nil => intro st d hd; simp at hd
  | cons d0 rest ih =>
    intro st d hd hf ht
    rcases List.mem_cons.mp hd with rfl | hd
    · have h1 := importStep_establishes st d hf ht
      exact ⟨importFold_mono rest _ _ _ _ h1.1, importFold_mono rest _ _ _ _ h1.2⟩
    · exact ih (importStep st d0) d hd
        (by rw [importStep_isSome]; exact hf)
        (by rw [importStep_isSome]; exact ht)

/-- Inserting a fresh key appends. -/
theorem dictInsert_fresh (l : Dict α) (k : String) (v : α) (h : ¬ k ∈ dictKeys l) :
    dictInsert l k v = l ++ [(k, v)] := by
  unfold dictInsert
  rw [if_neg]
  intro hc
  rw [List.any_eq_true] at hc
  obtain ⟨p, hp, he⟩ := hc
  rw [decide_eq_true_eq] at he
  exact h (he ▸ List.mem_map_of_mem (fun q => q.1) hp)

/-- Folding `dictInsert` over pairwise-fresh ids just appends the keyed
entries in order. -/
theorem foldl_dictInsert_fresh (cs : List Connection) :
    ∀ acc : Dict Connection, (dictKeys acc ++ cs.map (fun c => c.id)).Nodup →
      cs.foldl (fun acc c => dictInsert acc c.id c) acc =
        acc ++ cs.map (fun c => (c.id, c)) := by
  induction cs with
  | nil => intro acc _; simp
  | cons c rest ih =>
    intro acc h
    have hknotin : ¬ c.id ∈ dictKeys acc := by
      intro hc
      exact (List.nodup_append.mp h).2.2 hc (List.mem_cons_self _ _)
    simp only [List.foldl_cons, List.map_cons]
    rw [dictInsert_fresh _ _ _ hknotin, ih (acc ++ [(c.id, c)]) (by
      simpa [dictKeys, List.append_assoc] using h)]
    simp [List.append_assoc]

/-- `ConnectionType(t.value)` recovers `t`. -/
theorem ofValue_value (t : ConnectionType) : ConnectionType.ofValue t.value = some t := by
  cases t <;> rfl

/-- Importing what was exported reconstructs the connection field for
field. -/
theorem connOfData_connectionData (c : Connection) : connOfData (connectionData c) = c := by
  unfold connOfData connectionData
  rw [ofValue_value]
  rfl

/-- A dict whose keys equal the stored ids is rebuilt by re-keying. -/
theorem keyed_map (l : Dict Connection) (hkey : ∀ kv ∈ l, kv.1 = kv.2.id) :
    l.map (fun kv => (kv.2.id, kv.2)) = l := by
  induction l with
  | nil => rfl
  | cons kv rest ih =>
    simp only [List.map_cons]
    rw [ih (fun x hx => hkey x (List.mem_cons_of_mem _ hx))]
    rw [← hkey kv (List.mem_cons_self _ _)]

/-- C7.  Round trip: importing the export of a store with unique,
correctly keyed connection ids restores the connection map entry for
entry (all fields, the category included), and for every restored
connection whose endpoint nodes and ports exist in the store, both ports
list each other after the import (the peer lists are reconciled against
the restored connection set). -/
theorem export_import_roundtrip (s : NMState)
    (hids : (s.connections.map (fun kv => kv.2.id)).Nodup)
    (hkey : ∀ kv ∈ s.connections, kv.1 = kv.2.id) :
    (importConnections s (exportConnections s)).connections = s.connections ∧
    ∀ kv ∈ (importConnections s (exportConnections s)).connections,
      (getPort s kv.2.from_node kv.2.from_port).isSome = true →
      (getPort s kv.2.to_node kv.2.to_port).isSome = true →
      peerListed (importConnections s (exportConnections s)) kv.2.from_node kv.2.from_port
          kv.2.to_port = true ∧
      peerListed (importConnections s (exportConnections s)) kv.2.to_node kv.2.to_port
          kv.2.from_port = true := by
  have hconn : (importConnections s (exportConnections s)).connections = s.connections := by
    unfold importConnections exportConnections
    rw [importFold_connections, List.foldl_map]
    simp only [connOfData_connectionData]
    have hnodup : (dictKeys ([] : Dict Connection)
        ++ (dictValues s.connections).map (fun c => c.id)).Nodup := by
      simpa [dictKeys, dictValues, List.map_map] using hids
    rw [foldl_dictInsert_fresh _ _ hnodup]
    simp only [List.nil_append]
    unfold dictValues
    rw [List.map_map]
    exact keyed_map s.connections hkey
  refine ⟨hconn, ?_⟩
  intro kv hkv hf ht
  rw [hconn] at hkv
  have hd : connectionData kv.2 ∈ exportConnections s := by
    unfold exportConnections dictValues
    exact List.mem_map_of_mem _ (List.mem_map_of_mem _ hkv)
  have h := importFold_establishes (exportConnections s) { s with connections := [] }
      (connectionData kv.2) hd
      (by rw [connOfData_connectionData]; exact hf)
      (by rw [connOfData_connectionData]; exact ht)
  rw [connOfData_connectionData] at h
  exact h

/-- Witness for C7: round-tripping `sRT` (one resource-gated connection,
ports with empty peer lists) restores the connection map exactly and
re-establishes `pa <-> pb` on both ports. -/
theorem export_import_roundtrip_witness :
    (importConnections sRT (exportConnections sRT)).connections = sRT.connections ∧
    peerListed (importConnections sRT (exportConnections sRT)) "A" "pa" "pb" = true ∧
    peerListed (importConnections sRT (exportConnections sRT)) "B" "pb" "pa" = true :=
  have h := export_import_roundtrip sRT (by decide) (by decide)
  have h2 := h.2 ("c1", sRTconn) (by rw [h.1]; decide) (by decide) (by decide)
  ⟨h.1, h2.1, h2.2⟩

/-- C9.  A condition attached to a node or a connection draws an error
finding if and only if it is non-blank after stripping and contains none
of the whitelist tokens; blank conditions are always accepted. -/
theorem condition_check_iff (nodes : Dict BaseNode) (connections : Dict Connection) :
    (∀ nid node, (nid, node) ∈ nodes → ∀ c ∈ node.conditions,
      (CondIssue.node nid c ∈ validateConditions nodes connections ↔
        isValidCondition c = false)) ∧
    (∀ cid conn, (cid, conn) ∈ connections →
      (CondIssue.conn cid conn.condition ∈ validateConditions nodes connections ↔
        isValidCondition conn.condition = false)) ∧
    (∀ c : String, pyStrip c = "" → isValidCondition c = true) ∧
    (∀ c : String, isValidCondition c = false ↔
      (¬ pyStrip c = "" ∧ ∀ pattern ∈ validPatterns, ¬ pattern.data <:+: c.data)) := by
  have hblank : ∀ c : String, isValidCondition c = false → ¬ pyStrip c = "" := by
    intro c h hc
    unfold isValidCondition at h
    rw [if_pos (Or.inr hc)] at h
    simp at h
  refine ⟨?_, ?_, ?_, ?_⟩
  · intro nid node hmem c hc
    constructor
    · intro h
      rcases List.mem_append.mp h with hA | hB
      · obtain ⟨kv, _, hm⟩ := List.mem_bind.mp hA
        obtain ⟨c', hc', heq⟩ := List.mem_map.mp hm
        have hcc := (CondIssue.node.inj heq).2
        have hf := (List.mem_filter.mp hc').2
        rw [← hcc]
        simpa using hf
      · obtain ⟨kv, _, hm⟩ := List.mem_bind.mp hB
        split at hm
        · rcases List.mem_singleton.mp hm with heq
          exact absurd heq (by intro hcon; cases hcon)
        · simp at hm
    · intro hinv
      refine List.mem_append.mpr (Or.inl (List.mem_bind.mpr ⟨(nid, node), hmem, ?_⟩))
      exact List.mem_map.mpr ⟨c, List.mem_filter.mpr ⟨hc, by simp [hinv]⟩, rfl⟩
  · intro cid conn hmem
    constructor
    · intro h
      rcases List.mem_append.mp h with hA | hB
      · obtain ⟨kv, _, hm⟩ := List.mem_bind.mp hA
        obtain ⟨c', _, heq⟩ := List.mem_map.mp hm
        exact absurd heq (by intro hcon; cases hcon)
      · obtain ⟨kv, _, hm⟩ := List.mem_bind.mp hB
        split at hm
        next hguard =>
          have heq := List.mem_singleton.mp hm
          have h2 := (CondIssue.conn.inj heq).2
          rw [h2]
          exact hguard.2
        · simp at hm
    · intro hinv
      have hne : conn.condition ≠ "" := by
        intro hc
        exact hblank conn.condition hinv (by rw [hc]; rfl)
      refine List.mem_append.mpr (Or.inr (List.mem_bind.mpr ⟨(cid, conn), hmem, ?_⟩))
      rw [if_pos ⟨hne, hinv⟩]
      exact List.mem_singleton.mpr rfl
  · intro c h
    unfold isValidCondition
    rw [if_pos (Or.inr h)]
  · intro c
    by_cases hb : c = "" ∨ pyStrip c = ""
    · unfold isValidCondition
      rw [if_pos hb]
      have hfalse : ¬ (¬ pyStrip c = "" ∧
          ∀ pattern ∈ validPatterns, ¬ pattern.data <:+: c.data) := by
        intro hcon
        rcases hb with hb | hb
        · exact hcon.1 (by rw [hb]; rfl)
        · exact hcon.1 hb
      simp [hfalse]
    · unfold isValidCondition
      rw [if_neg hb]
      have hs : ¬ pyStrip c = "" := fun hc => hb (Or.inr hc)
      constructor
      · intro h
        refine ⟨hs, ?_⟩
        intro pattern hp hinf
        rw [List.any_eq_false] at h
        have h2 := h pattern hp
        simp only [strContains, decide_eq_true_eq] at h2
        exact h2 hinf
      · intro h
        rw [List.any_eq_false]
        intro pattern hp
        simp only [strContains, decide_eq_true_eq]
        exact h.2 pattern hp

/-- Witness for C9: the token-free condition `"xyz"` on node `N` is
flagged, the empty condition is accepted, and the characterization applies
to the valid condition `"player.gold > 10"`. -/
theorem condition_check_iff_witness :
    CondIssue.node "N" "xyz" ∈ validateConditions condNodes condConns ∧
    isValidCondition "" = true ∧
    (isValidCondition "player.gold > 10" = false ↔
      (¬ pyStrip "player.gold > 10" = "" ∧
        ∀ pattern ∈ validPatterns, ¬ pattern.data <:+: ("player.gold > 10").data)) :=
  have h := condition_check_iff condNodes condConns
  ⟨(h.1 "N" nodeN (by decide) "xyz" (by decide)).mpr (by decide),
   h.2.2.1 "" rfl,
   h.2.2.2 "player.gold > 10"⟩

/-- C5.  The full-graph circular-dependency analysis is blind to the
connection category (retyping every connection arbitrarily leaves the
findings unchanged), reports the simple-category cycle `A -> B -> C -> A`
as exactly one finding involving `A`, `B`, `C`, and reports nothing on an
acyclic graph of the same size. -/
theorem full_graph_cycle_validation :
    (∀ (conns : Dict Connection) (f : Connection → ConnectionType),
      validateCircularDependencies
          (conns.map (fun kv => (kv.1, { kv.2 with connection_type := f kv.2 }))) =
        validateCircularDependencies conns) ∧
    validateCircularDependencies cyc3 = [⟨["A", "B", "C"]⟩] ∧
    validateCircularDependencies dag3 = [] := by
  refine ⟨?_, rfl, rfl⟩
  intro conns f
  have hval : dictValues (conns.map (fun kv => (kv.1, { kv.2 with connection_type := f kv.2 }))) =
      (dictValues conns).map (fun c => { c with connection_type := f c }) := by
    unfold dictValues
    rw [List.map_map, List.map_map]
    rfl
  have hgraph : buildGraph ((dictValues conns).map (fun c => { c with connection_type := f c })) =
      buildGraph (dictValues conns) := by
    unfold buildGraph
    rw [List.foldl_map]
  unfold validateCircularDependencies
  rw [hval, hgraph, List.length_map]

/-! ### DFS reachability lemmas for unreachable-node validation -/

/-- `unrDfs` never loses a reached node. -/
theorem unrDfs_mono (graph : Dict (List String)) :
    ∀ fuel v reach x, x ∈ reach → x ∈ unrDfs graph fuel v reach := by
  intro fuel
  induction fuel with
  | zero => intro v reach x h; exact h
  | succ fuel ih =>
    intro v reach x h
    unfold unrDfs
    split
    · exact h
    · have hfold : ∀ (l : List String) (r : List String), x ∈ r →
          x ∈ l.foldl (fun r nb => unrDfs graph fuel nb r) r := by
        intro l
        induction l with
        | nil => intro r h2; exact h2
        | cons nb rest ihl => intro r h2; exact ihl _ (ih nb r x h2)
      exact hfold _ _ (List.mem_append.mpr (Or.inl h))

/-- The neighbor fold never loses a reached node. -/
theorem unrDfs_fold_mono (graph : Dict (List String)) (fuel : Nat) (l : List String) :
    ∀ r x, x ∈ r → x ∈ l.foldl (fun r nb => unrDfs graph fuel nb r) r := by
  induction l with
  | nil => intro r x h; exact h
  | cons nb rest ih => intro r x h; exact ih _ x (unrDfs_mono graph fuel nb r x h)

/-- With fuel left, a DFS root always ends up reached. -/
theorem unrDfs_self (graph : Dict (List String)) (fuel : Nat) (h : 0 < fuel)
    (v : String) (reach : List String) : v ∈ unrDfs graph fuel v reach := by
  cases fuel with
  | zero => exact absurd h (lt_irrefl 0)
  | succ fuel =>
    unfold unrDfs
    split
    · assumption
    · exact unrDfs_fold_mono graph fuel _ _ v (List.mem_append.mpr (Or.inr (by simp)))

/-- Every start candidate is in the union of the DFS-reachable sets. -/
theorem mem_fold_starts (graph : Dict (List String)) (fuel : Nat) (h : 0 < fuel) :
    ∀ (starts : List String) (r : List String) (st : String), st ∈ starts →
      st ∈ starts.foldl (fun r s => unrDfs graph fuel s r) r := by
  intro starts
  induction starts with
  | nil => intro r st h2; simp at h2
  | cons s rest ih =>
    intro r st h2
    rcases List.mem_cons.mp h2 with rfl | h2
    · exact unrDfs_fold_mono graph fuel rest _ st (unrDfs_self graph fuel h st r)
    · exact ih _ st h2

/-- With no connections at all, every node is its own start candidate and
hence reachable. -/
theorem keys_subset_reachable_empty (nodes : Dict BaseNode) (n : String)
    (hn : n ∈ dictKeys nodes) : n ∈ reachableUnion nodes [] := by
  unfold reachableUnion
  try dsimp only
  have hstarts : (dictKeys nodes).filter (fun k => ¬ k ∈ incomingOf []) = dictKeys nodes := by
    apply List.filter_eq_self.mpr
    intro a _
    simp [incomingOf]
  rw [hstarts]
  have hne : ¬ dictKeys nodes = [] := by
    intro hc; rw [hc] at hn; simp at hn
  rw [if_neg hne]
  exact mem_fold_starts _ _ (by omega) _ _ n hn

/-- C6.  Unreachable-node detection warns exactly once about every node
outside the union of the DFS-reachable sets from the start candidates
(nodes without incoming connections, or the arbitrary fallback node), and
about nothing else; the node `D` of the isolated cycle `D <-> E` is
flagged exactly once, and an inbound edge from the reachable node `B`
removes every finding on re-run. -/
theorem unreachable_detection_spec :
    (∀ (nodes : Dict BaseNode) (conns : Dict Connection), (dictKeys nodes).Nodup →
      ∀ n : String,
        (validateUnreachableNodes nodes conns).count ⟨n⟩ =
          if n ∈ dictKeys nodes ∧ ¬ n ∈ reachableUnion nodes (dictValues conns)
          then 1 else 0) ∧
    (validateUnreachableNodes unrNodes unrConns).count ⟨"D"⟩ = 1 ∧
    validateUnreachableNodes unrNodes unrConns2 = [] := by
  refine ⟨?_, rfl, rfl⟩
  intro nodes conns hnodup n
  unfold validateUnreachableNodes
  split
  next hempty =>
    rcases hempty with hempty | hempty
    · have hkeys : dictKeys nodes = [] := by
        rw [List.isEmpty_iff.mp hempty]; rfl
      rw [if_neg (fun hc => by have h1 := hc.1; rw [hkeys] at h1; simp at h1)]
      rfl
    · have hvals : dictValues conns = [] := by
        rw [List.isEmpty_iff.mp hempty]; rfl
      rw [if_neg ?_, List.count_nil]
      intro hc
      rw [hvals] at hc
      exact hc.2 (keys_subset_reachable_empty nodes n hc.1)
  next =>
    have hinj : Function.Injective (fun k => UnreachIssue.mk k) := by
      intro a b hab
      exact congrArg UnreachIssue.node_id hab
    rw [List.count_map_of_injective _ _ hinj]
    by_cases hmem : n ∈ dictKeys nodes ∧ ¬ n ∈ reachableUnion nodes (dictValues conns)
    · rw [if_pos hmem]
      exact List.count_eq_one_of_mem (List.Nodup.filter _ hnodup)
        (List.mem_filter.mpr ⟨hmem.1, by simpa using hmem.2⟩)
    · rw [if_neg hmem]
      rw [List.count_eq_zero]
      intro hc
      rcases List.mem_filter.mp hc with ⟨h1, h2⟩
      exact hmem ⟨h1, by simpa using h2⟩

/-- Witness for C6: the general count law applied to the concrete fixture
at node `D`. -/
theorem unreachable_detection_spec_witness :
    (validateUnreachableNodes unrNodes unrConns).count ⟨"D"⟩ =
      if "D" ∈ dictKeys unrNodes ∧ ¬ "D" ∈ reachableUnion unrNodes (dictValues unrConns)
      then 1 else 0 :=
  unreachable_detection_spec.1 unrNodes unrConns (by decide) "D"

end StoryForge
